import Mathlib

/-!
Verification of the go-httpt request/response mocking harness.

The embedding follows `server.go`: a FIFO queue of trip entries
(method matcher, path matcher, round-trip producer), a consuming
lookup (`tripQueue.pop`), query-string normalization (`getPathOnly`)
and the transport dispatch (`transport.RoundTrip`) with its fallback
policies. Go strings are modelled as Lean `String`; the Go `error`
result is modelled as `Option String` (`none` = nil error); the
side effect of `t.Errorf` on the injected `*testing.T` is modelled by
threading a list of reported failure messages through every
round-trip function.
-/

namespace Httpt

/-- ANY matches with any HTTP method (`ANY = Method("")` in the source). -/
def ANY : String := ""

/-- AnyPath matches all request paths (`AnyPath = "!AnyPath!"`). -/
def AnyPath : String := "!AnyPath!"

/-- An incoming HTTP request: its method and the string form of its URL
(what `req.Method` and `req.URL.String()` give in the source). -/
structure Request where
  method : String
  url : String
deriving DecidableEq

/-- A synthesized HTTP response: status code and body
(the fields of `http.Response` the harness sets). -/
structure Response where
  statusCode : Nat
  body : String
deriving DecidableEq

/-- A Go `error` value: `none` is the nil error. -/
abbrev Err := Option String

/-- The reported-failure log of the injected `*testing.T`: each call of
`t.Errorf` appends its message. -/
abbrev TLog := List String

/-- RoundTripFunc mocks one HTTP round trip: `func(*http.Request)
(*http.Response, error)`. A producer may capture the `*testing.T`
(as `NotMockedFunc` does), so it also threads the failure log. -/
abbrev RoundTripFunc := Request → TLog → (Option Response × Err) × TLog

/-- One queued rule (`tripEntry` in the source). -/
structure TripEntry where
  method : String
  path : String
  trip : RoundTripFunc

/-- The entry-accepts-request test inlined in `tripQueue.pop`:
the loop body continues (skips the entry) when
`e.method != method && e.method != ANY` or
`e.path != path && e.path != AnyPath`. -/
def entryMatches (e : TripEntry) (method path : String) : Bool :=
  !(e.method != method && e.method != ANY) && !(e.path != path && e.path != AnyPath)

/-- `tripQueue.push`: appends a new entry to the tail of the queue. -/
def tripQueue.push (q : List TripEntry) (method path : String) (r : RoundTripFunc) :
    List TripEntry :=
  q ++ [{ method := method, path := path, trip := r }]

/-- `tripQueue.reset`: discards all entries (`q.queue = []tripEntry(nil)`). -/
def tripQueue.reset (_q : List TripEntry) : List TripEntry := []

/-- `tripQueue.pop`: scans head to tail; the first entry passing both
matcher tests is removed (`append(q.queue[:i], q.queue[i+1:]...)`) and its
trip is returned with found = true; otherwise `(nil, false)` and the
queue is left as it was. The returned list is the queue after the call. -/
def tripQueue.pop : List TripEntry → String → String → Option RoundTripFunc × List TripEntry
  | [], _, _ => (none, [])
  | e :: rest, method, path =>
    if entryMatches e method path then
      (some e.trip, rest)
    else
      let r := tripQueue.pop rest method path
      (r.1, e :: r.2)

/-- Everything of a character list before its first `?`
(models `strings.Split(path, "?")[0]` for the one-character separator). -/
def stripFromFirstQ : List Char → List Char
  | [] => []
  | c :: cs => if c = '?' then [] else c :: stripFromFirstQ cs

/-- `getPathOnly`: takes `req.URL.String()` and, when it contains a `?`
(`strings.Contains(path, "?")`), keeps only what precedes the first `?`
(`strings.Split(path, "?")[0]`); otherwise returns it unchanged. -/
def getPathOnly (req : Request) : String :=
  let path := req.url
  if path.data.contains '?' then ⟨stripFromFirstQ path.data⟩ else path

/-- The harness (`Server` with its embedded `tripBuilder`/`tripPusher`):
the builder's pusher fields (set to `ANY`/`AnyPath` by `newTripBuilder`),
the queue engine, and the optional `DefaultRoundTrip` fallback. -/
structure Server where
  pusherMethod : String
  pusherPath : String
  queue : List TripEntry
  defaultRoundTrip : Option RoundTripFunc

/-- The message of `NotMockedFunc` for a given request. -/
def notMockedMsg (req : Request) : String :=
  "httpt.Server: RoundTripFunc not mocked for this request "
    ++ req.method ++ ":" ++ getPathOnly req

/-- `NotMockedFunc(t)`: reports the failure through `t.Errorf` (one
appended message) and returns an InternalServerError (500) response
carrying the message, with a nil error. -/
def NotMockedFunc : RoundTripFunc := fun r log =>
  let msg := notMockedMsg r
  ((some { statusCode := 500, body := msg }, none), log ++ [msg])

/-- `newTripBuilder`: a pusher on a fresh empty queue with method `ANY`
and path `AnyPath`. -/
def newTripBuilder : Server :=
  { pusherMethod := ANY, pusherPath := AnyPath, queue := [], defaultRoundTrip := none }

/-- `NewServer(t)`: builder plus `NotMockedFunc(t)` as the default. -/
def NewServer : Server :=
  { newTripBuilder with defaultRoundTrip := some NotMockedFunc }

/-- `NewRawServer()`: builder without any default round trip. -/
def NewRawServer : Server := newTripBuilder

/-- `Server.Reset`: resets the stacked round trips. -/
def Server.Reset (s : Server) : Server :=
  { s with queue := tripQueue.reset s.queue }

/-- `Server.Len`: number of round trips still queued. -/
def Server.Len (s : Server) : Nat := s.queue.length

/-- `Server.StillExpectedRTs`: `[METHOD]path` for each remaining entry. -/
def Server.StillExpectedRTs (s : Server) : List String :=
  s.queue.map (fun rt => "[" ++ rt.method ++ "]" ++ rt.path)

/-- A `tripPusher` as handed out by `On`: the method and path it will
push with (its engine is the server's queue, passed at push time). -/
structure TripPusher where
  method : String
  path : String

/-- `tripBuilder.On`: a pusher for the given method and path, sharing
the server's engine. -/
def Server.On (_s : Server) (method path : String) : TripPusher :=
  { method := method, path := path }

/-- `tripPusher.Push` applied to the server owning the shared engine:
appends an entry with the pusher's method and path. -/
def Server.PushOn (s : Server) (t : TripPusher) (f : RoundTripFunc) : Server :=
  { s with queue := tripQueue.push s.queue t.method t.path f }

/-- `Server.Push` (the embedded `tripPusher.Push`): pushes with the
builder's own method and path fields. -/
def Server.Push (s : Server) (f : RoundTripFunc) : Server :=
  s.PushOn { method := s.pusherMethod, path := s.pusherPath } f

/-- `FailureFunc(err)`: a round trip that returns `(nil, err)`. -/
def FailureFunc (err : String) : RoundTripFunc := fun _ log => ((none, some err), log)

/-- The error message of the unconfigured fallback path. -/
def notMockedErr (method path : String) : String :=
  "httpt.Server request not mocked for this request " ++ method ++ ":" ++ path

/-- `transport.RoundTrip`: derive method and normalized path, pop the
queue; on a hit run the popped trip and return its result verbatim; on a
miss return the descriptive error when `DefaultRoundTrip` is nil, else
run the default. Returns (result, server after the call, failure log). -/
def transport.RoundTrip (s : Server) (req : Request) (log : TLog) :
    (Option Response × Err) × Server × TLog :=
  let method := req.method
  let path := getPathOnly req
  match tripQueue.pop s.queue method path with
  | (some r, q2) =>
    let out := r req log
    (out.1, { s with queue := q2 }, out.2)
  | (none, q2) =>
    match s.defaultRoundTrip with
    | none => ((none, some (notMockedErr method path)), { s with queue := q2 }, log)
    | some d =>
      let out := d req log
      (out.1, { s with queue := q2 }, out.2)

/-- One operation on the queue engine, for the length invariant:
a push or a consuming lookup. -/
inductive QOp where
  | push (method path : String) (f : RoundTripFunc)
  | lookup (method path : String)

/-- Applies one operation to (queue, count of successful lookups). -/
def stepOp (st : List TripEntry × Nat) : QOp → List TripEntry × Nat
  | .push m p f => (tripQueue.push st.1 m p f, st.2)
  | .lookup m p =>
    let r := tripQueue.pop st.1 m p
    (r.2, if r.1.isSome then st.2 + 1 else st.2)

/-- Runs a sequence of operations from the empty queue, returning the
final queue and the number of successful lookups. -/
def runOps (ops : List QOp) : List TripEntry × Nat :=
  ops.foldl stepOp ([], 0)

/-- Number of push operations in a sequence. -/
def countPush : List QOp → Nat
  | [] => 0
  | .push _ _ _ :: rest => countPush rest + 1
  | .lookup _ _ :: rest => countPush rest

/-- A pop that found nothing leaves the queue exactly as it was. -/
theorem pop_snd_of_none (q : List TripEntry) (m p : String)
    (h : (tripQueue.pop q m p).1 = none) : (tripQueue.pop q m p).2 = q := by
  induction q with
  | nil => simp [tripQueue.pop]
  | cons e rest ih =>
    by_cases hm : entryMatches e m p = true
    · simp [tripQueue.pop, hm] at h
    · simp only [tripQueue.pop, hm, if_false, Bool.false_eq_true] at h ⊢
      simpa using ih h

/-- A pop that found an entry shrinks the queue by exactly one. -/
theorem pop_length_of_some (q : List TripEntry) (m p : String)
    (h : (tripQueue.pop q m p).1.isSome = true) :
    (tripQueue.pop q m p).2.length + 1 = q.length := by
  induction q with
  | nil => simp [tripQueue.pop] at h
  | cons e rest ih =>
    by_cases hm : entryMatches e m p = true
    · simp [tripQueue.pop, hm]
    · simp only [tripQueue.pop, hm, if_false, Bool.false_eq_true] at h ⊢
      simpa using ih h

/-- When no entry of the queue matches, pop reports not-found. -/
theorem pop_of_no_match (q : List TripEntry) (m p : String)
    (h : ∀ e ∈ q, entryMatches e m p = false) :
    tripQueue.pop q m p = (none, q) := by
  induction q with
  | nil => simp [tripQueue.pop]
  | cons e rest ih =>
    have he : entryMatches e m p = false := h e (List.mem_cons_self e rest)
    have ih2 := ih (fun x hx => h x (List.mem_cons_of_mem e hx))
    simp [tripQueue.pop, he, ih2]

/-- C1: the consuming lookup scans head to tail and removes exactly the
first matching entry, returning its producer; the rest of the queue keeps
its order; with no match it reports not-found and leaves the queue
unchanged. -/
theorem pop_first_match_or_unchanged (q : List TripEntry) (m p : String) :
    ((∀ e ∈ q, entryMatches e m p = false) ∧ tripQueue.pop q m p = (none, q))
    ∨ (∃ l1 e l2, q = l1 ++ e :: l2 ∧ entryMatches e m p = true ∧
        (∀ x ∈ l1, entryMatches x m p = false) ∧
        tripQueue.pop q m p = (some e.trip, l1 ++ l2)) := by
  induction q with
  | nil => exact Or.inl ⟨by simp, by simp [tripQueue.pop]⟩
  | cons a rest ih =>
    by_cases ha : entryMatches a m p = true
    · exact Or.inr ⟨[], a, rest, rfl, ha, by simp, by simp [tripQueue.pop, ha]⟩
    · rcases ih with ⟨hall, hp⟩ | ⟨l1, e, l2, hq, he, hl1, hp⟩
      · refine Or.inl ⟨?_, ?_⟩
        · intro x hx
          rcases List.mem_cons.mp hx with rfl | hx
          · simpa using ha
          · exact hall x hx
        · simp [tripQueue.pop, ha, hp]
      · refine Or.inr ⟨a :: l1, e, l2, by simp [hq], he, ?_, ?_⟩
        · intro x hx
          rcases List.mem_cons.mp hx with rfl | hx
          · simpa using ha
          · exact hl1 x hx
        · simp [tripQueue.pop, ha, hp]

/-- The matcher test in propositional form. -/
theorem entryMatches_true_iff (e : TripEntry) (m p : String) :
    entryMatches e m p = true ↔
      ((e.method = ANY ∨ e.method = m) ∧ (e.path = AnyPath ∨ e.path = p)) := by
  constructor
  · intro h
    by_cases h1 : e.method = ANY <;> by_cases h2 : e.method = m <;>
      by_cases h3 : e.path = AnyPath <;> by_cases h4 : e.path = p <;>
      simp [entryMatches, h1, h2, h3, h4] at h ⊢
  · rintro ⟨h1 | h1, h2 | h2⟩ <;> simp [entryMatches, h1, h2]

/-- C2: an entry matches a request exactly when its method is the
wildcard or equals the request method, and its path is the wildcard or
equals the (query-stripped) request path; an entry with concrete method
and path matches only that exact method and path. -/
theorem entryMatches_iff (e : TripEntry) (m p : String) :
    (entryMatches e m p = true ↔
      ((e.method = ANY ∨ e.method = m) ∧ (e.path = AnyPath ∨ e.path = p)))
    ∧ (e.method ≠ ANY → e.path ≠ AnyPath →
        (entryMatches e m p = true ↔ (m = e.method ∧ p = e.path))) := by
  refine ⟨entryMatches_true_iff e m p, fun hm hp => ?_⟩
  rw [entryMatches_true_iff]
  constructor
  · rintro ⟨h1 | h1, h2 | h2⟩ <;> first
      | exact absurd h1 hm | exact absurd h2 hp | exact ⟨h1.symm, h2.symm⟩
  · rintro ⟨rfl, rfl⟩
    exact ⟨Or.inr rfl, Or.inr rfl⟩

/-- C2 witness: a concrete entry with method GET and path /p matches a
GET /p request and not a POST /p request. -/
theorem entryMatches_iff_witness :
    (entryMatches ⟨"GET", "/p", FailureFunc "x"⟩ "GET" "/p" = true ↔
      ("GET" = "GET" ∧ "/p" = "/p")) ∧
    (entryMatches ⟨"GET", "/p", FailureFunc "x"⟩ "POST" "/p" = true ↔
      ("POST" = "GET" ∧ "/p" = "/p")) :=
  ⟨(entryMatches_iff ⟨"GET", "/p", FailureFunc "x"⟩ "GET" "/p").2
      (by decide) (by decide),
    (entryMatches_iff ⟨"GET", "/p", FailureFunc "x"⟩ "POST" "/p").2
      (by decide) (by decide)⟩

/-- Running operations from any start state: final length plus successful
lookups equals pushes plus the start's length plus its counter. -/
theorem foldl_stepOp_length (ops : List QOp) :
    ∀ st : List TripEntry × Nat,
      (ops.foldl stepOp st).1.length + (ops.foldl stepOp st).2
        = countPush ops + st.1.length + st.2 := by
  induction ops with
  | nil => intro st; simp [countPush]
  | cons op rest ih =>
    intro st
    cases op with
    | push m p f =>
      rw [List.foldl_cons, ih]
      simp [stepOp, countPush, tripQueue.push]
      ring
    | lookup m p =>
      rw [List.foldl_cons, ih]
      simp only [stepOp, countPush]
      by_cases h : (tripQueue.pop st.1 m p).1.isSome = true
      · have := pop_length_of_some st.1 m p h
        simp [h]
        omega
      · have hn : (tripQueue.pop st.1 m p).1 = none := by
          cases hx : (tripQueue.pop st.1 m p).1 with
          | none => rfl
          | some r => rw [hx] at h; simp at h
        have := pop_snd_of_none st.1 m p hn
        simp [h, this]

/-- C3: push grows the length by one, a successful pop shrinks it by one,
a failed pop leaves the queue unchanged, and for any interleaving of
pushes and lookups from the empty queue the final length plus the number
of successful lookups equals the number of pushes (so successful lookups
never exceed pushes and the length is their difference). -/
theorem queue_length_invariant (q : List TripEntry) (m p : String)
    (f : RoundTripFunc) (ops : List QOp) :
    (tripQueue.push q m p f).length = q.length + 1
    ∧ ((tripQueue.pop q m p).1.isSome = true →
        (tripQueue.pop q m p).2.length + 1 = q.length)
    ∧ ((tripQueue.pop q m p).1 = none → (tripQueue.pop q m p).2 = q)
    ∧ (runOps ops).1.length + (runOps ops).2 = countPush ops
    ∧ (runOps ops).2 ≤ countPush ops := by
  have hrun : (runOps ops).1.length + (runOps ops).2 = countPush ops := by
    have := foldl_stepOp_length ops ([], 0)
    simpa [runOps] using this
  exact ⟨by simp [tripQueue.push], pop_length_of_some q m p,
    pop_snd_of_none q m p, hrun, by omega⟩

/-- C3 witness: one push of a catch-all entry followed by one successful
lookup returns the queue to length 0 with one successful lookup counted,
and the one-step facts hold on a singleton queue. -/
theorem queue_length_invariant_witness :
    (tripQueue.push [] ANY AnyPath (FailureFunc "e")).length = 0 + 1
    ∧ (tripQueue.pop [⟨ANY, AnyPath, FailureFunc "e"⟩] "GET" "/p").2.length + 1
        = [(⟨ANY, AnyPath, FailureFunc "e"⟩ : TripEntry)].length
    ∧ (runOps [QOp.push ANY AnyPath (FailureFunc "e"), QOp.lookup "GET" "/p"]).1.length
        + (runOps [QOp.push ANY AnyPath (FailureFunc "e"), QOp.lookup "GET" "/p"]).2
        = countPush [QOp.push ANY AnyPath (FailureFunc "e"), QOp.lookup "GET" "/p"] := by
  have h := queue_length_invariant [⟨ANY, AnyPath, FailureFunc "e"⟩] "GET" "/p"
    (FailureFunc "e") [QOp.push ANY AnyPath (FailureFunc "e"), QOp.lookup "GET" "/p"]
  refine ⟨?_, h.2.1 (by rfl), h.2.2.2.1⟩
  have h2 := queue_length_invariant [] ANY AnyPath (FailureFunc "e") []
  simpa using h2.1

/-- A list without `?` is left whole by the strip. -/
theorem stripFromFirstQ_of_no_q (l : List Char) (h : l.contains '?' = false) :
    stripFromFirstQ l = l := by
  induction l with
  | nil => rfl
  | cons c cs ih =>
    simp only [List.contains_cons, Bool.or_eq_false_iff, beq_eq_false_iff_ne] at h
    simp [stripFromFirstQ, Ne.symm h.1, ih h.2]

/-- Stripping cuts exactly at the first `?`. -/
theorem stripFromFirstQ_append (l r : List Char) (h : l.contains '?' = false) :
    stripFromFirstQ (l ++ '?' :: r) = l := by
  induction l with
  | nil => simp [stripFromFirstQ]
  | cons c cs ih =>
    simp only [List.contains_cons, Bool.or_eq_false_iff, beq_eq_false_iff_ne] at h
    simp [stripFromFirstQ, Ne.symm h.1, ih h.2]

/-- The stripped value never contains `?` any more. -/
theorem stripFromFirstQ_no_q (l : List Char) :
    (stripFromFirstQ l).contains '?' = false := by
  induction l with
  | nil => rfl
  | cons c cs ih =>
    by_cases hc : c = '?'
    · simp [stripFromFirstQ, hc]
    · have ihm : '?' ∉ stripFromFirstQ cs := by simpa using ih
      simp [stripFromFirstQ, hc, Ne.symm hc, ihm]

/-- C4: the value compared against an entry's path is the request URL cut
at the first `?`: a URL `path?query` (with `?`-free path) normalizes to
`path`, a `?`-free URL stays whole, and the normalized value never
retains a `?` (the whole query string is gone). -/
theorem getPathOnly_strips_query (m a b u : String)
    (h : a.data.contains '?' = false) :
    getPathOnly { method := m, url := a ++ "?" ++ b } = a
    ∧ getPathOnly { method := m, url := a } = a
    ∧ (getPathOnly { method := m, url := u }).data.contains '?' = false := by
  have hdata : (a ++ "?" ++ b).data = a.data ++ '?' :: b.data := by
    rw [String.data_append, String.data_append]
    simp
  refine ⟨?_, ?_, ?_⟩
  · show (if (a ++ "?" ++ b).data.contains '?' then
        (⟨stripFromFirstQ (a ++ "?" ++ b).data⟩ : String) else a ++ "?" ++ b) = a
    rw [hdata]
    have hc : (a.data ++ '?' :: b.data).contains '?' = true := by
      simp
    rw [hc]
    simp only [if_true, stripFromFirstQ_append a.data b.data h]
  · show (if a.data.contains '?' then
        (⟨stripFromFirstQ a.data⟩ : String) else a) = a
    rw [h]
    simp
  · show (if u.data.contains '?' then
        (⟨stripFromFirstQ u.data⟩ : String) else u).data.contains '?' = false
    by_cases hu : u.data.contains '?' = true
    · rw [hu]
      simpa using stripFromFirstQ_no_q u.data
    · rw [Bool.not_eq_true] at hu
      rw [hu]
      simpa using hu

/-- C4 witness: GET /p?q=1 is compared as /p, GET /p stays /p, and the
normalized form of /p?q=1?x has no `?` left. -/
theorem getPathOnly_strips_query_witness :
    getPathOnly { method := "GET", url := "/p" ++ "?" ++ "q=1" } = "/p"
    ∧ getPathOnly { method := "GET", url := "/p" } = "/p"
    ∧ (getPathOnly { method := "GET", url := "/p?q=1?x" }).data.contains '?' = false :=
  getPathOnly_strips_query "GET" "/p" "q=1" "/p?q=1?x" (by rfl)

/-- C5: with no matching entry and a nil DefaultRoundTrip, dispatch
returns no response and a descriptive error naming the method and the
normalized path, and the server is untouched. -/
theorem unmatched_unconfigured_error (s : Server) (req : Request) (log : TLog)
    (hd : s.defaultRoundTrip = none)
    (hp : (tripQueue.pop s.queue req.method (getPathOnly req)).1 = none) :
    transport.RoundTrip s req log
      = ((none, some (notMockedErr req.method (getPathOnly req))), s, log)
    ∧ ∃ pre mid post, notMockedErr req.method (getPathOnly req)
        = pre ++ req.method ++ mid ++ getPathOnly req ++ post := by
  have hsnd := pop_snd_of_none s.queue req.method (getPathOnly req) hp
  have hpop : tripQueue.pop s.queue req.method (getPathOnly req)
      = (none, s.queue) := Prod.ext_iff.2 ⟨hp, hsnd⟩
  constructor
  · obtain ⟨pm, pp, qu, d⟩ := s
    simp only at hpop hd
    simp [transport.RoundTrip, hpop, hd]
  · refine ⟨"httpt.Server request not mocked for this request ", ":", "", ?_⟩
    simp [notMockedErr]

/-- C5 witness: a raw server with an empty queue turns GET /p into the
descriptive error and no response. -/
theorem unmatched_unconfigured_error_witness :
    transport.RoundTrip NewRawServer { method := "GET", url := "/p" } []
      = ((none, some (notMockedErr "GET" (getPathOnly { method := "GET", url := "/p" }))),
          NewRawServer, [])
    ∧ ∃ pre mid post, notMockedErr "GET" (getPathOnly { method := "GET", url := "/p" })
        = pre ++ "GET" ++ mid ++ getPathOnly { method := "GET", url := "/p" } ++ post :=
  unmatched_unconfigured_error NewRawServer { method := "GET", url := "/p" } [] rfl rfl

/-- C6: with no matching entry and NotMockedFunc installed as the
default, dispatch reports exactly one failure to the test log and
returns a 500 response with a nil error; the queue is unchanged. -/
theorem unmatched_reported_500 (s : Server) (req : Request) (log : TLog)
    (hd : s.defaultRoundTrip = some NotMockedFunc)
    (hp : (tripQueue.pop s.queue req.method (getPathOnly req)).1 = none) :
    transport.RoundTrip s req log
      = ((some { statusCode := 500, body := notMockedMsg req }, none),
          s, log ++ [notMockedMsg req])
    ∧ (log ++ [notMockedMsg req]).length = log.length + 1
    ∧ (transport.RoundTrip s req log).2.1.Len = s.Len := by
  have hsnd := pop_snd_of_none s.queue req.method (getPathOnly req) hp
  have hpop : tripQueue.pop s.queue req.method (getPathOnly req)
      = (none, s.queue) := Prod.ext_iff.2 ⟨hp, hsnd⟩
  have hmain : transport.RoundTrip s req log
      = ((some { statusCode := 500, body := notMockedMsg req }, none),
          s, log ++ [notMockedMsg req]) := by
    obtain ⟨pm, pp, qu, d⟩ := s
    simp only at hpop hd
    simp [transport.RoundTrip, hpop, hd, NotMockedFunc]
  refine ⟨hmain, by simp, by rw [hmain]⟩

/-- C6 witness: a fresh NewServer answers GET /p with a 500 response, a
nil error, and exactly one reported failure. -/
theorem unmatched_reported_500_witness :
    transport.RoundTrip NewServer { method := "GET", url := "/p" } []
      = ((some { statusCode := 500, body := notMockedMsg { method := "GET", url := "/p" } },
          none), NewServer, [] ++ [notMockedMsg { method := "GET", url := "/p" }])
    ∧ (([] : TLog) ++ [notMockedMsg { method := "GET", url := "/p" }]).length
        = ([] : TLog).length + 1
    ∧ (transport.RoundTrip NewServer { method := "GET", url := "/p" } []).2.1.Len
        = NewServer.Len :=
  unmatched_reported_500 NewServer { method := "GET", url := "/p" } [] rfl rfl

/-- C7: when the pop finds an entry, dispatch runs that producer on the
request and hands back its result pair verbatim; in particular a
FailureFunc producer's error comes back unchanged with no response. -/
theorem matched_producer_verbatim (s : Server) (req : Request) (log : TLog)
    (r : RoundTripFunc) (q2 : List TripEntry)
    (hp : tripQueue.pop s.queue req.method (getPathOnly req) = (some r, q2)) :
    transport.RoundTrip s req log
      = ((r req log).1, { s with queue := q2 }, (r req log).2)
    ∧ (∀ e, r = FailureFunc e → (transport.RoundTrip s req log).1 = (none, some e)) := by
  have hmain : transport.RoundTrip s req log
      = ((r req log).1, { s with queue := q2 }, (r req log).2) := by
    simp [transport.RoundTrip, hp]
  refine ⟨hmain, fun e he => ?_⟩
  rw [hmain, he]
  rfl

/-- C7 witness: a queued FailureFunc for GET /p is consumed by GET /p and
its simulated connection error is returned untouched. -/
theorem matched_producer_verbatim_witness :
    transport.RoundTrip
        { pusherMethod := ANY, pusherPath := AnyPath,
          queue := [{ method := "GET", path := "/p", trip := FailureFunc "conn refused" }],
          defaultRoundTrip := none }
        { method := "GET", url := "/p" } []
      = ((FailureFunc "conn refused" { method := "GET", url := "/p" } []).1,
          { pusherMethod := ANY, pusherPath := AnyPath, queue := [], defaultRoundTrip := none },
          (FailureFunc "conn refused" { method := "GET", url := "/p" } []).2)
    ∧ (∀ e, FailureFunc "conn refused" = FailureFunc e →
        (transport.RoundTrip
          { pusherMethod := ANY, pusherPath := AnyPath,
            queue := [{ method := "GET", path := "/p", trip := FailureFunc "conn refused" }],
            defaultRoundTrip := none }
          { method := "GET", url := "/p" } []).1 = (none, some e)) :=
  matched_producer_verbatim
    { pusherMethod := ANY, pusherPath := AnyPath,
      queue := [{ method := "GET", path := "/p", trip := FailureFunc "conn refused" }],
      defaultRoundTrip := none }
    { method := "GET", url := "/p" } [] (FailureFunc "conn refused") [] rfl

/-- C8: reset empties the queue, keeps the configured fallback, makes any
subsequent dispatch take the fallback or the unconfigured-error path, and
a push after reset yields the same queue as on a fresh harness. -/
theorem reset_empties_and_falls_through (s : Server) (req : Request) (log : TLog)
    (m p : String) (f : RoundTripFunc) :
    (s.Reset).Len = 0
    ∧ (s.Reset).defaultRoundTrip = s.defaultRoundTrip
    ∧ (s.defaultRoundTrip = none →
        transport.RoundTrip s.Reset req log
          = ((none, some (notMockedErr req.method (getPathOnly req))), s.Reset, log))
    ∧ (∀ d, s.defaultRoundTrip = some d →
        transport.RoundTrip s.Reset req log
          = ((d req log).1, s.Reset, (d req log).2))
    ∧ ((s.Reset).PushOn ((s.Reset).On m p) f).queue
        = (NewRawServer.PushOn (NewRawServer.On m p) f).queue := by
  obtain ⟨pm, pp, qu, d⟩ := s
  refine ⟨rfl, rfl, ?_, ?_, rfl⟩
  · intro hd
    simp only at hd
    simp [transport.RoundTrip, Server.Reset, tripQueue.reset, tripQueue.pop, hd]
  · intro d0 hd
    simp only at hd
    simp [transport.RoundTrip, Server.Reset, tripQueue.reset, tripQueue.pop, hd]

/-- C8 witness: resetting a server holding one entry empties it and GET
/p then takes the unconfigured-error path. -/
theorem reset_empties_and_falls_through_witness :
    ((NewRawServer.Push (FailureFunc "x")).Reset).Len = 0
    ∧ transport.RoundTrip ((NewRawServer.Push (FailureFunc "x")).Reset)
          { method := "GET", url := "/p" } []
        = ((none, some (notMockedErr "GET" (getPathOnly { method := "GET", url := "/p" }))),
            (NewRawServer.Push (FailureFunc "x")).Reset, []) := by
  have h := reset_empties_and_falls_through (NewRawServer.Push (FailureFunc "x"))
    { method := "GET", url := "/p" } [] "GET" "/p" (FailureFunc "x")
  exact ⟨h.1, h.2.2.1 rfl⟩

/-- C9: on a builder whose pusher fields are the wildcards (as
newTripBuilder makes them), Push f is the same server mutation as
On(ANY, AnyPath).Push(f): one wildcard entry appended at the tail. -/
theorem push_eq_on_any_anypath (s : Server) (f : RoundTripFunc)
    (hm : s.pusherMethod = ANY) (hp : s.pusherPath = AnyPath) :
    s.Push f = s.PushOn (s.On ANY AnyPath) f
    ∧ (s.Push f).queue = s.queue ++ [{ method := ANY, path := AnyPath, trip := f }] := by
  obtain ⟨pm, pp, qu, d⟩ := s
  simp only at hm hp
  subst hm hp
  exact ⟨rfl, rfl⟩

/-- C9 witness: on a fresh raw server the two push forms coincide. -/
theorem push_eq_on_any_anypath_witness :
    NewRawServer.Push (FailureFunc "y")
      = NewRawServer.PushOn (NewRawServer.On ANY AnyPath) (FailureFunc "y")
    ∧ (NewRawServer.Push (FailureFunc "y")).queue
      = NewRawServer.queue ++ [{ method := ANY, path := AnyPath, trip := FailureFunc "y" }] :=
  push_eq_on_any_anypath NewRawServer (FailureFunc "y") rfl rfl

/-- C10: the method wildcard is the empty string: pushing with method ""
is pushing with ANY, an entry with method ANY passes the method test for
every request method (only its path test remains), and a request with an
empty method can only be matched by an entry whose method is ANY. -/
theorem any_is_empty_string :
    ANY = ""
    ∧ (∀ (q : List TripEntry) (p : String) (f : RoundTripFunc),
        tripQueue.push q "" p f = tripQueue.push q ANY p f)
    ∧ (∀ (pe m p : String) (f : RoundTripFunc),
        entryMatches { method := ANY, path := pe, trip := f } m p
          = !(pe != p && pe != AnyPath))
    ∧ (∀ (e : TripEntry) (p : String), entryMatches e "" p = true → e.method = ANY) := by
  refine ⟨rfl, fun q p f => rfl, fun pe m p f => ?_, fun e p h => ?_⟩
  · simp [entryMatches, ANY]
  · rcases ((entryMatches_true_iff e "" p).1 h).1 with h1 | h1
    · exact h1
    · exact h1

/-- C10 witness: pushing with "" equals pushing with ANY, and the entry
consumed by an empty-method request indeed has method ANY. -/
theorem any_is_empty_string_witness :
    tripQueue.push [] "" "/p" (FailureFunc "z") = tripQueue.push [] ANY "/p" (FailureFunc "z")
    ∧ (⟨"", "/p", FailureFunc "z"⟩ : TripEntry).method = ANY := by
  have h := any_is_empty_string
  exact ⟨h.2.1 [] "/p" (FailureFunc "z"),
    h.2.2.2 ⟨"", "/p", FailureFunc "z"⟩ "/p" (by rfl)⟩

end Httpt
